import Mathlib

/-!
Verification of the beacon-chain consensus core: a shallow embedding of
the block-acceptance pipeline (`process_block`), the per-slot state
transition (`per_slot_processing` / `cache_state`), historical block-root
lookup (`get_block_roots`), genesis initialisation (`from_genesis`),
block production (`produce_block`) and the head bookkeeping operations,
together with theorems settling the specification claims about them.

Machine integers (`u64` slots, 32-byte hashes) are modelled as `Nat`;
`u64` subtraction on slots is modelled as truncated (saturating) `Nat`
subtraction.  External collaborators (hashing, per-epoch processing,
per-block processing, caches, slot clock, fork choice, operation pool)
are passed in explicitly through an `Externals` record, mirroring the
trait-bound generics of the source.
-/

namespace BeaconCore

/-- A 32-byte content hash, modelled as a natural number. -/
abbrev Hash256 := Nat

instance (ε α : Type) [DecidableEq ε] [DecidableEq α] : DecidableEq (Except ε α) := fun x y =>
  match x, y with
  | .error a, .error b =>
    if h : a = b then isTrue (by rw [h]) else isFalse (by simp [h])
  | .error _, .ok _ => isFalse (by simp)
  | .ok _, .error _ => isFalse (by simp)
  | .ok a, .ok b =>
    if h : a = b then isTrue (by rw [h]) else isFalse (by simp [h])

/-- A validator registry entry; only the public key is consulted by the
operations under verification. -/
structure Validator where
  pubkey : Nat
deriving DecidableEq

/-- A beacon block header: slot, parent root, state root, body root and the
proposer signature (the signature is excluded from the signed root). -/
structure BeaconBlockHeader where
  slot : Nat
  previous_block_root : Hash256
  state_root : Hash256
  block_body_root : Hash256
  signature : Nat
deriving DecidableEq

/-- A block body: the randao reveal plus the remaining operation data
(attestations, deposits, exits, slashings, eth1 data), abstracted as one
opaque value since only external collaborators consume it. -/
structure BeaconBlockBody where
  randao_reveal : Nat
  rest : Nat
deriving DecidableEq

/-- A beacon block. -/
structure BeaconBlock where
  slot : Nat
  previous_block_root : Hash256
  state_root : Hash256
  signature : Nat
  body : BeaconBlockBody
deriving DecidableEq

/-- The beacon state.  `latest_block_roots` and `latest_state_roots` are the
two fixed-size historical ring buffers; `epoch_data` abstracts the fields
only touched by per-epoch processing (justification/finalization markers,
balances, crosslinks, randomness mixes). -/
structure BeaconState where
  slot : Nat
  latest_block_header : BeaconBlockHeader
  latest_block_roots : List Hash256
  latest_state_roots : List Hash256
  validator_registry : List Validator
  epoch_data : Nat
deriving DecidableEq

/-- Protocol constants consumed read-only. -/
structure ChainSpec where
  slots_per_epoch : Nat
  genesis_slot : Nat
  zero_hash : Hash256
  empty_signature : Nat
deriving DecidableEq

/-- Errors raised by `BeaconState` accessors. -/
inductive BeaconStateError where
  | slotOutOfBounds
  | cacheFailure
deriving DecidableEq

/-- Modelled from the spec: the `BeaconState` ring-buffer accessors are not
under `src/`; per section 4.2/9 each ring is a fixed-capacity circular
buffer indexed by `slot mod capacity`, readable exactly for slots in the
retained window `slot < state.slot ≤ slot + capacity`, and out-of-window
access is an explicit `SlotOutOfBounds` error. -/
def get_block_root (s : BeaconState) (slot : Nat) : Except BeaconStateError Hash256 :=
  let cap := s.latest_block_roots.length
  if slot < s.slot ∧ s.slot ≤ slot + cap then
    .ok (s.latest_block_roots.getD (slot % cap) 0)
  else
    .error .slotOutOfBounds

/-- Modelled from the spec: writer counterpart of `get_block_root`, same
retained-history window check. -/
def set_block_root (s : BeaconState) (slot : Nat) (root : Hash256) :
    Except BeaconStateError BeaconState :=
  let cap := s.latest_block_roots.length
  if slot < s.slot ∧ s.slot ≤ slot + cap then
    .ok { s with latest_block_roots := s.latest_block_roots.set (slot % cap) root }
  else
    .error .slotOutOfBounds

/-- Modelled from the spec: ring-buffer read of a historical state root,
same window semantics as `get_block_root`. -/
def get_state_root (s : BeaconState) (slot : Nat) : Except BeaconStateError Hash256 :=
  let cap := s.latest_state_roots.length
  if slot < s.slot ∧ s.slot ≤ slot + cap then
    .ok (s.latest_state_roots.getD (slot % cap) 0)
  else
    .error .slotOutOfBounds

/-- Modelled from the spec: writer counterpart of `get_state_root`. -/
def set_state_root (s : BeaconState) (slot : Nat) (root : Hash256) :
    Except BeaconStateError BeaconState :=
  let cap := s.latest_state_roots.length
  if slot < s.slot ∧ s.slot ≤ slot + cap then
    .ok { s with latest_state_roots := s.latest_state_roots.set (slot % cap) root }
  else
    .error .slotOutOfBounds

/-- Errors of the external per-block processing procedure: `Invalid` means
the block itself is objectively bad, `BeaconStateError` an internal state
fault.  Payloads are abstracted as codes. -/
inductive BlockProcessingError where
  | invalid (code : Nat)
  | beaconStateError (code : Nat)
deriving DecidableEq

/-- Modelled from the spec: the fields per-block processing may modify
(signature bookkeeping via the latest block header, balance/registry
effects, randomness contribution); it never touches the slot counter or
the historical root rings. -/
structure BlockDelta where
  epoch_data : Nat
  validator_registry : List Validator
  latest_block_header : BeaconBlockHeader
deriving DecidableEq

/-- Modelled from the spec: the fields the per-epoch transition may modify
(justification/finalization, balances, registry, crosslinks, randomness);
it never touches the slot counter or the historical root rings. -/
structure EpochDelta where
  epoch_data : Nat
  validator_registry : List Validator
deriving DecidableEq

/-- Epoch-relative cache identifiers used by the cache-building calls. -/
inductive RelativeEpoch where
  | current
  | nextWithoutRegistryChange
  | nextWithRegistryChange
deriving DecidableEq

/-- The external collaborators of the consensus core, passed explicitly:
content hashing, the externally-defined epoch/block transitions, cache
construction, the slot clock, fork choice and the operation pool. -/
structure Externals where
  state_root_of : BeaconState → Hash256
  header_signed_root : BeaconBlockHeader → Hash256
  body_root : BeaconBlockBody → Hash256
  per_epoch : BeaconState → Except Nat EpochDelta
  per_block : BeaconState → BeaconBlock → Except BlockProcessingError BlockDelta
  per_block_no_sig : BeaconState → Nat → Hash256 → BeaconBlockBody →
    Except BlockProcessingError BlockDelta
  build_all_caches_ok : BeaconState → Bool
  build_epoch_cache_ok : BeaconState → RelativeEpoch → Bool
  clock_slot : Option Nat
  add_block_ok : BeaconBlock → Hash256 → Bool
  find_head : List (BeaconBlock × Hash256) → Hash256 → Except Nat Hash256
  pool_rest : Nat → BeaconState → Nat

/-- Source `block.block_header()`: the header of a block (body replaced by its
root). -/
def block_header (X : Externals) (b : BeaconBlock) : BeaconBlockHeader :=
  { slot := b.slot
    previous_block_root := b.previous_block_root
    state_root := b.state_root
    block_body_root := X.body_root b.body
    signature := b.signature }

/-- Source `block.block_header().canonical_root()`: the canonical root of a block,
the signed root of its header. -/
def block_canonical_root (X : Externals) (b : BeaconBlock) : Hash256 :=
  X.header_signed_root (block_header X b)

/-- Applying a `BlockDelta` to a state. -/
def apply_block_delta (s : BeaconState) (d : BlockDelta) : BeaconState :=
  { s with
      epoch_data := d.epoch_data
      validator_registry := d.validator_registry
      latest_block_header := d.latest_block_header }

/-- Errors of `per_slot_processing`. -/
inductive SlotProcessingError where
  | beaconStateError (e : BeaconStateError)
  | epochProcessingError (code : Nat)
deriving DecidableEq

/-- Source `cache_state` (src/chain/eth2/state_processing/src/per_slot_processing.rs):
computes the pre-transition state root, temporarily increments the slot so
the ring-buffer setters accept the previous slot, backfills a zero
state-root placeholder in the latest block header, writes the state root
and the header's signed root into the two rings at the previous slot's
index, then restores the slot. -/
def cache_state (X : Externals) (spec : ChainSpec) (s : BeaconState) :
    Except SlotProcessingError BeaconState :=
  let previous_slot_state_root := X.state_root_of s
  let previous_slot := s.slot
  let s1 : BeaconState := { s with slot := s.slot + 1 }
  let s2 : BeaconState :=
    if s1.latest_block_header.state_root = spec.zero_hash then
      { s1 with latest_block_header :=
          { s1.latest_block_header with state_root := previous_slot_state_root } }
    else s1
  match set_state_root s2 previous_slot previous_slot_state_root with
  | .error e => .error (.beaconStateError e)
  | .ok s3 =>
    let latest_block_root := X.header_signed_root s3.latest_block_header
    match set_block_root s3 previous_slot latest_block_root with
    | .error e => .error (.beaconStateError e)
    | .ok s4 => .ok { s4 with slot := s4.slot - 1 }

/-- Source `per_slot_processing`: caches the roots, runs the (external) per-epoch
transition when the next slot starts a new epoch, then increments the
slot. -/
def per_slot_processing (X : Externals) (spec : ChainSpec) (s : BeaconState) :
    Except SlotProcessingError BeaconState :=
  match cache_state X spec s with
  | .error e => .error e
  | .ok s1 =>
    if (s1.slot + 1) % spec.slots_per_epoch = 0 then
      match X.per_epoch s1 with
      | .error c => .error (.epochProcessingError c)
      | .ok d =>
        .ok { s1 with
                slot := s1.slot + 1
                epoch_data := d.epoch_data
                validator_registry := d.validator_registry }
    else
      .ok { s1 with slot := s1.slot + 1 }

/-- The `n`-fold application of `per_slot_processing` (the
`for _ in state.slot..target` loops of the chain code). -/
def advance_slots (X : Externals) (spec : ChainSpec) (s : BeaconState) :
    Nat → Except SlotProcessingError BeaconState
  | 0 => .ok s
  | n + 1 =>
    match per_slot_processing X spec s with
    | .error e => .error e
    | .ok s2 => advance_slots X spec s2 n

/-- A checkpoint: a block paired with the state produced by applying it,
plus both canonical roots (src/chain/beacon/src/checkpoint.rs is consumed
through its constructor and atomic `update`, modelled by whole-structure
replacement). -/
structure CheckPoint where
  beacon_block : BeaconBlock
  beacon_block_root : Hash256
  beacon_state : BeaconState
  beacon_state_root : Hash256
deriving DecidableEq

/-- Modelled from the spec: the external content-addressed Store, with the
per-type key spaces the chain uses (`get::<BeaconBlock>` vs
`get::<BeaconState>`); `put` is durable and `get` of an unknown hash is
`none`. -/
structure Store where
  blocks : List (Hash256 × BeaconBlock)
  states : List (Hash256 × BeaconState)
deriving DecidableEq

def Store.get_block (st : Store) (h : Hash256) : Option BeaconBlock :=
  match st.blocks.find? (fun p => p.1 == h) with
  | some p => some p.2
  | none => none

def Store.get_state (st : Store) (h : Hash256) : Option BeaconState :=
  match st.states.find? (fun p => p.1 == h) with
  | some p => some p.2
  | none => none

def Store.put_block (st : Store) (h : Hash256) (b : BeaconBlock) : Store :=
  { st with blocks := (h, b) :: st.blocks }

def Store.put_state (st : Store) (h : Hash256) (s : BeaconState) : Store :=
  { st with states := (h, s) :: st.states }

/-- Source `BeaconChainError` (src/chain/beacon/src/errors.rs is consumed through
the variants raised in beacon_chain.rs). -/
inductive BeaconChainError where
  | unableToReadSlot
  | dbInconsistent
  | forkChoiceError (code : Nat)
  | missingBeaconBlock (h : Hash256)
  | missingBeaconState (h : Hash256)
  | beaconStateError (e : BeaconStateError)
  | slotProcessingError (e : SlotProcessingError)
deriving DecidableEq

/-- Source `ValidBlock` (src/chain/beacon/src/beacon_chain.rs). -/
inductive ValidBlock where
  | processed
deriving DecidableEq

/-- Source `InvalidBlock` (src/chain/beacon/src/beacon_chain.rs). -/
inductive InvalidBlock where
  | futureSlot (present_slot : Nat) (block_slot : Nat)
  | stateRootMismatch
  | parentUnknown
  | slotProcessingError (e : SlotProcessingError)
  | perBlockProcessingError (e : BlockProcessingError)
deriving DecidableEq

/-- Source `BlockProcessingOutcome` (src/chain/beacon/src/beacon_chain.rs). -/
inductive BlockProcessingOutcome where
  | validBlock (v : ValidBlock)
  | invalidBlock (r : InvalidBlock)
deriving DecidableEq

/-- Source `BlockProcessingOutcome::is_invalid` (src/chain/beacon/src/beacon_chain.rs
lines 254-268): `true` exactly when the block was objectively invalid and
the sending peer should be disregarded. -/
def BlockProcessingOutcome.is_invalid : BlockProcessingOutcome → Bool
  | .validBlock _ => false
  | .invalidBlock r =>
    match r with
    | .futureSlot _ _ => true
    | .stateRootMismatch => true
    | .parentUnknown => false
    | .slotProcessingError _ => false
    | .perBlockProcessingError e =>
      match e with
      | .invalid _ => true
      | .beaconStateError _ => false

/-- Source `BlockProcessingOutcome::sucessfully_processed`
(src/chain/beacon/src/beacon_chain.rs lines 272-277). -/
def BlockProcessingOutcome.sucessfully_processed : BlockProcessingOutcome → Bool
  | .validBlock _ => true
  | _ => false

/-- A snapshot of the `BeaconChain` struct: the Store, the two head
checkpoints, the working state, the fork-choice block graph (list of
blocks handed to `add_block`) and the operation pool (opaque). -/
structure Chain where
  store : Store
  canonical_head : CheckPoint
  finalized_head : CheckPoint
  state : BeaconState
  fork_choice_blocks : List (BeaconBlock × Hash256)
  op_pool : Nat
deriving DecidableEq

/-- Source `BeaconChain::from_genesis` (beacon_chain.rs lines 299-338): persist
the genesis state and block keyed by their canonical roots, seed both head
checkpoints with the genesis checkpoint, build the state caches, and start
with the genesis state as the working state. -/
def from_genesis (X : Externals) (store : Store) (fc : List (BeaconBlock × Hash256))
    (genesis_state : BeaconState) (genesis_block : BeaconBlock) :
    Except BeaconChainError Chain :=
  let state_root := X.state_root_of genesis_state
  let store1 := store.put_state state_root genesis_state
  let block_root := block_canonical_root X genesis_block
  let store2 := store1.put_block block_root genesis_block
  let finalized_head : CheckPoint :=
    { beacon_block := genesis_block
      beacon_block_root := block_root
      beacon_state := genesis_state
      beacon_state_root := state_root }
  let canonical_head : CheckPoint :=
    { beacon_block := genesis_block
      beacon_block_root := block_root
      beacon_state := genesis_state
      beacon_state_root := state_root }
  if X.build_all_caches_ok genesis_state then
    .ok { store := store2
          canonical_head := canonical_head
          finalized_head := finalized_head
          state := genesis_state
          fork_choice_blocks := fc
          op_pool := 0 }
  else
    .error (.beaconStateError .cacheFailure)

/-- Source `BeaconChain::update_state` (beacon_chain.rs lines 496-512): read the
slot clock, transition the supplied state to the present slot, build its
caches, and install it as the working state; on any failure the working
state is left untouched. -/
def update_state (X : Externals) (spec : ChainSpec) (c : Chain) (s : BeaconState) :
    Chain × Except BeaconChainError Unit :=
  match X.clock_slot with
  | none => (c, .error .unableToReadSlot)
  | some present_slot =>
    match advance_slots X spec s (present_slot - s.slot) with
    | .error e => (c, .error (.slotProcessingError e))
    | .ok s2 =>
      if X.build_all_caches_ok s2 then
        ({ c with state := s2 }, .ok ())
      else
        (c, .error (.beaconStateError .cacheFailure))

/-- The in-place loop of `catchup_state`: each iteration builds the
next-epoch caches and advances one slot; a failure leaves the slots
already processed in place (the Rust loop mutates the working state under
its write lock). -/
def catchup_loop (X : Externals) (spec : ChainSpec) (s : BeaconState) :
    Nat → BeaconState × Except BeaconChainError Unit
  | 0 => (s, .ok ())
  | n + 1 =>
    if X.build_epoch_cache_ok s .nextWithoutRegistryChange then
      if X.build_epoch_cache_ok s .nextWithRegistryChange then
        match per_slot_processing X spec s with
        | .error e => (s, .error (.slotProcessingError e))
        | .ok s2 => catchup_loop X spec s2 n
      else (s, .error (.beaconStateError .cacheFailure))
    else (s, .error (.beaconStateError .cacheFailure))

/-- Source `BeaconChain::catchup_state` (beacon_chain.rs lines 515-535):
transition the working state in place up to the slot-clock slot. -/
def catchup_state (X : Externals) (spec : ChainSpec) (c : Chain) :
    Chain × Except BeaconChainError Unit :=
  match X.clock_slot with
  | none => (c, .error .unableToReadSlot)
  | some present_slot =>
    let r := catchup_loop X spec c.state (present_slot - c.state.slot)
    match r.2 with
    | .error e => ({ c with state := r.1 }, .error e)
    | .ok _ =>
      if X.build_all_caches_ok r.1 then
        ({ c with state := r.1 }, .ok ())
      else
        ({ c with state := r.1 }, .error (.beaconStateError .cacheFailure))

/-- The inner scan of `validator_index`, mirroring the enumerated search
over the registry. -/
def validator_index_loop (pubkey : Nat) : List Validator → Nat → Option Nat
  | [], _ => none
  | v :: rest, i =>
    if v.pubkey = pubkey then some i else validator_index_loop pubkey rest (i + 1)

/-- Source `BeaconChain::validator_index` (beacon_chain.rs lines 572-585): the
index of the first validator with the given public key in the canonical
head state's registry. -/
def validator_index (c : Chain) (pubkey : Nat) : Option Nat :=
  validator_index_loop pubkey c.canonical_head.beacon_state.validator_registry 0

/-- Source `BeaconChain::process_block` (beacon_chain.rs lines 763-849): the
block-acceptance pipeline — future-slot gate, parent lookup, parent-state
lookup, slot catch-up, per-block processing, state-root comparison,
persistence, fork-choice insertion and the eager first-arrival head
update. -/
def process_block (X : Externals) (spec : ChainSpec) (c : Chain) (block : BeaconBlock) :
    Chain × Except BeaconChainError BlockProcessingOutcome :=
  let block_root := block_canonical_root X block
  let present_slot := c.state.slot
  if present_slot < block.slot then
    (c, .ok (.invalidBlock (.futureSlot present_slot block.slot)))
  else
    match c.store.get_block block.previous_block_root with
    | none => (c, .ok (.invalidBlock .parentUnknown))
    | some parent_block =>
      match c.store.get_state parent_block.state_root with
      | none => (c, .error .dbInconsistent)
      | some parent_state =>
        match advance_slots X spec parent_state (block.slot - parent_state.slot) with
        | .error e => (c, .ok (.invalidBlock (.slotProcessingError e)))
        | .ok state1 =>
          match X.per_block state1 block with
          | .error e => (c, .ok (.invalidBlock (.perBlockProcessingError e)))
          | .ok delta =>
            let state2 := apply_block_delta state1 delta
            let state_root := X.state_root_of state2
            if block.state_root ≠ state_root then
              (c, .ok (.invalidBlock .stateRootMismatch))
            else
              let store2 := (c.store.put_block block_root block).put_state state_root state2
              if X.add_block_ok block block_root then
                let c1 : Chain :=
                  { c with
                      store := store2
                      fork_choice_blocks := c.fork_choice_blocks ++ [(block, block_root)] }
                if c1.canonical_head.beacon_block_root = block.previous_block_root then
                  let c2 : Chain :=
                    { c1 with canonical_head :=
                        { beacon_block := block
                          beacon_block_root := block_root
                          beacon_state := state2
                          beacon_state_root := state_root } }
                  let r := update_state X spec c2 state2
                  match r.2 with
                  | .ok _ => (r.1, .ok (.validBlock .processed))
                  | .error e => (r.1, .error e)
                else
                  (c1, .ok (.validBlock .processed))
              else
                ({ c with store := store2 }, .error (.forkChoiceError 0))

/-- Errors of `produce_block`. -/
inductive BlockProductionError where
  | unableToGetBlockRootFromState
  | blockProcessingError (e : BlockProcessingError)
  | beaconStateError
deriving DecidableEq

/-- Source `BeaconChain::produce_block` (beacon_chain.rs lines 855-911): clone the
working state, build the current epoch cache, read the previous block root
from the ring, assemble a candidate block from the operation pool, apply
it without signature verification, and declare the resulting state's root
in the block. -/
def produce_block (X : Externals) (spec : ChainSpec) (c : Chain) (randao_reveal : Nat) :
    Chain × Except BlockProductionError (BeaconBlock × BeaconState) :=
  let state := c.state
  if X.build_epoch_cache_ok state .current then
    match get_block_root state (state.slot - 1) with
    | .error _ => (c, .error .unableToGetBlockRootFromState)
    | .ok previous_block_root =>
      let body : BeaconBlockBody :=
        { randao_reveal := randao_reveal
          rest := X.pool_rest c.op_pool c.state }
      let block : BeaconBlock :=
        { slot := state.slot
          previous_block_root := previous_block_root
          state_root := 0
          signature := spec.empty_signature
          body := body }
      match X.per_block_no_sig state state.slot previous_block_root body with
      | .error e => (c, .error (.blockProcessingError e))
      | .ok delta =>
        let state2 := apply_block_delta state delta
        let state_root := X.state_root_of state2
        (c, .ok ({ block with state_root := state_root }, state2))
  else
    (c, .error .beaconStateError)

/-- Source `BeaconChain::fork_choice` (beacon_chain.rs lines 914-942): ask the
external fork-choice component for the best root from the finalized root;
when it differs, load that block and its state from the Store, replace the
canonical head, and re-seed the working state from it. -/
def run_fork_choice (X : Externals) (spec : ChainSpec) (c : Chain) :
    Chain × Except BeaconChainError Unit :=
  let present_head := c.finalized_head.beacon_block_root
  match X.find_head c.fork_choice_blocks present_head with
  | .error code => (c, .error (.forkChoiceError code))
  | .ok new_head =>
    if new_head = present_head then (c, .ok ())
    else
      match c.store.get_block new_head with
      | none => (c, .error (.missingBeaconBlock new_head))
      | some block =>
        let block_root := block_canonical_root X block
        match c.store.get_state block.state_root with
        | none => (c, .error (.missingBeaconState block.state_root))
        | some state =>
          let state_root := X.state_root_of state
          let c2 : Chain :=
            { c with canonical_head :=
                { beacon_block := block
                  beacon_block_root := block_root
                  beacon_state := state
                  beacon_state_root := state_root } }
          update_state X spec c2 state

/-- The loop of `get_block_roots` (beacon_chain.rs lines 406-436),
parametrised by fuel for termination (`none` models divergence of the Rust
loop): reads ring roots walking backwards by `step`, reloading an older
persisted state from the Store when a slot falls outside the retained
window; a Store miss breaks, a `get_state_root` failure propagates. -/
def gbr_loop (store : Store) (earliest_slot step : Nat) :
    Nat → BeaconState → Nat → List Hash256 →
    Option (Except BeaconStateError (Nat × List Hash256))
  | 0, _, _, _ => none
  | fuel + 1, state, slot, roots =>
    match get_block_root state slot with
    | .ok root =>
      if slot < earliest_slot then some (.ok (slot, roots))
      else gbr_loop store earliest_slot step fuel state (slot - step) (roots ++ [root])
    | .error .slotOutOfBounds =>
      let earliest_historic_slot := state.slot - state.latest_state_roots.length
      match get_state_root state earliest_historic_slot with
      | .error e => some (.error e)
      | .ok new_state_root =>
        match store.get_state new_state_root with
        | some s2 => gbr_loop store earliest_slot step fuel s2 slot roots
        | none => some (.ok (slot, roots))
    | .error e => some (.error e)

/-- The final sanity check of `get_block_roots` (beacon_chain.rs lines
438-447): success only when the walk reached `earliest_slot` with exactly
`count` roots, returned reversed into chronological order. -/
def gbr_finish (earliest_slot count : Nat)
    (r : Option (Except BeaconStateError (Nat × List Hash256))) :
    Option (Except BeaconChainError (List Hash256)) :=
  match r with
  | none => none
  | some (.error e) => some (.error (.beaconStateError e))
  | some (.ok (slot, roots)) =>
    if slot ≤ earliest_slot ∧ roots.length = count then
      some (.ok roots.reverse)
    else
      some (.error (.beaconStateError .slotOutOfBounds))

/-- Source `BeaconChain::get_block_roots` (beacon_chain.rs lines 379-448):
`count` roots spaced `skip+1` slots apart, walked most-recent-first from
the working state's ring (seeded with the head block root when the highest
requested slot is the working state's own slot), then reversed. -/
def get_block_roots (c : Chain) (earliest_slot count skip : Nat) (fuel : Nat) :
    Option (Except BeaconChainError (List Hash256)) :=
  let step := skip + 1
  let state := c.state
  let slot0 := earliest_slot + count * (skip + 1) - 1
  if slot0 = state.slot ∧ c.canonical_head.beacon_block.slot = slot0 then
    gbr_finish earliest_slot count
      (gbr_loop c.store earliest_slot step fuel state (slot0 - step)
        [c.canonical_head.beacon_block_root])
  else
    if state.slot ≤ slot0 then
      some (.error (.beaconStateError .slotOutOfBounds))
    else
      gbr_finish earliest_slot count
        (gbr_loop c.store earliest_slot step fuel state slot0 [])

/-! ### Claim-side (specification) definitions -/

/-- The smallest index of a registry entry with the given public key
(`none` when absent) — the specification-side description of validator
lookup. -/
def smallest_matching_index (pubkey : Nat) : List Validator → Option Nat
  | [] => none
  | v :: rest =>
    if v.pubkey = pubkey then some 0
    else (smallest_matching_index pubkey rest).map (fun i => i + 1)

/-- The per-slot transition in the order the claim states it: (1) cache the
pre-transition state's root into both the block-root and state-root rings
at the previous slot's index, (2) backfill the zero state-root placeholder,
(3) increment the slot counter, (4) after the increment, run the per-epoch
transition when the new slot is the first slot of a new epoch. -/
def per_slot_processing_claim (X : Externals) (spec : ChainSpec) (s : BeaconState) :
    Except SlotProcessingError BeaconState :=
  let root := X.state_root_of s
  if s.latest_state_roots.length = 0 then .error (.beaconStateError .slotOutOfBounds)
  else if s.latest_block_roots.length = 0 then .error (.beaconStateError .slotOutOfBounds)
  else
    let cached : BeaconState :=
      { s with
          latest_state_roots :=
            s.latest_state_roots.set (s.slot % s.latest_state_roots.length) root
          latest_block_roots :=
            s.latest_block_roots.set (s.slot % s.latest_block_roots.length) root }
    let cached2 : BeaconState :=
      if cached.latest_block_header.state_root = spec.zero_hash then
        { cached with latest_block_header :=
            { cached.latest_block_header with state_root := root } }
      else cached
    let s3 : BeaconState := { cached2 with slot := s.slot + 1 }
    if s3.slot % spec.slots_per_epoch = 0 then
      match X.per_epoch s3 with
      | .error c => .error (.epochProcessingError c)
      | .ok d =>
        .ok { s3 with epoch_data := d.epoch_data, validator_registry := d.validator_registry }
    else
      .ok s3

/-- The per-slot transition in the amended order actually implemented:
backfill the zero state-root placeholder first, cache the pre-transition
state's root into the state-root ring and the (backfilled) header's signed
root into the block-root ring at the previous slot's index, run the
per-epoch transition before the increment when the upcoming slot starts a
new epoch, then increment the slot counter. -/
def per_slot_processing_amended (X : Externals) (spec : ChainSpec) (s : BeaconState) :
    Except SlotProcessingError BeaconState :=
  let root := X.state_root_of s
  let hdr :=
    if s.latest_block_header.state_root = spec.zero_hash then
      { s.latest_block_header with state_root := root }
    else s.latest_block_header
  if s.latest_state_roots.length = 0 then .error (.beaconStateError .slotOutOfBounds)
  else if s.latest_block_roots.length = 0 then .error (.beaconStateError .slotOutOfBounds)
  else
    let cached : BeaconState :=
      { s with
          latest_block_header := hdr
          latest_state_roots :=
            s.latest_state_roots.set (s.slot % s.latest_state_roots.length) root
          latest_block_roots :=
            s.latest_block_roots.set (s.slot % s.latest_block_roots.length)
              (X.header_signed_root hdr) }
    if (s.slot + 1) % spec.slots_per_epoch = 0 then
      match X.per_epoch cached with
      | .error c => .error (.epochProcessingError c)
      | .ok d =>
        .ok { cached with
                slot := s.slot + 1
                epoch_data := d.epoch_data
                validator_registry := d.validator_registry }
    else
      .ok { cached with slot := s.slot + 1 }

/-! ### Helper lemmas -/

theorem cache_state_char (X : Externals) (spec : ChainSpec) (s : BeaconState) :
    cache_state X spec s =
      (if s.latest_state_roots.length = 0 then
        .error (.beaconStateError .slotOutOfBounds)
      else if s.latest_block_roots.length = 0 then
        .error (.beaconStateError .slotOutOfBounds)
      else
        let root := X.state_root_of s
        let hdr :=
          if s.latest_block_header.state_root = spec.zero_hash then
            { s.latest_block_header with state_root := root }
          else s.latest_block_header
        .ok { s with
                latest_block_header := hdr
                latest_state_roots :=
                  s.latest_state_roots.set (s.slot % s.latest_state_roots.length) root
                latest_block_roots :=
                  s.latest_block_roots.set (s.slot % s.latest_block_roots.length)
                    (X.header_signed_root hdr) }) := by
  unfold cache_state set_state_root set_block_root
  by_cases hz : s.latest_block_header.state_root = spec.zero_hash <;>
    by_cases hs : s.latest_state_roots.length = 0 <;>
      by_cases hb : s.latest_block_roots.length = 0 <;>
        simp [hz, hs, hb, Nat.lt_succ_self, Nat.one_le_iff_ne_zero]

theorem validator_index_loop_eq (pubkey : Nat) :
    ∀ (l : List Validator) (k : Nat),
      validator_index_loop pubkey l k =
        (smallest_matching_index pubkey l).map (fun i => k + i) := by
  intro l
  induction l with
  | nil => intro k; rfl
  | cons v rest ih =>
    intro k
    by_cases h : v.pubkey = pubkey
    · simp [validator_index_loop, smallest_matching_index, h]
    · rw [show validator_index_loop pubkey (v :: rest) k =
            validator_index_loop pubkey rest (k + 1) by
          simp [validator_index_loop, h]]
      rw [ih (k + 1)]
      rw [show smallest_matching_index pubkey (v :: rest) =
            (smallest_matching_index pubkey rest).map (fun i => i + 1) by
          simp [smallest_matching_index, h]]
      cases smallest_matching_index pubkey rest with
      | none => rfl
      | some i => simp; omega

theorem smallest_matching_index_spec (pubkey : Nat) :
    ∀ l : List Validator,
      (∀ i, smallest_matching_index pubkey l = some i →
        (∃ v, l[i]? = some v ∧ v.pubkey = pubkey) ∧
        ∀ j, j < i → ∀ w, l[j]? = some w → w.pubkey ≠ pubkey) ∧
      (smallest_matching_index pubkey l = none → ∀ w ∈ l, w.pubkey ≠ pubkey) := by
  intro l
  induction l with
  | nil =>
    constructor
    · intro i h
      cases h
    · intro _ w hw
      cases hw
  | cons v rest ih =>
    constructor
    · intro i hi
      by_cases h : v.pubkey = pubkey
      · rw [show smallest_matching_index pubkey (v :: rest) = some 0 by
            simp [smallest_matching_index, h]] at hi
        cases hi
        refine ⟨⟨v, ?_, h⟩, ?_⟩
        · simp
        · intro j hj
          omega
      · rw [show smallest_matching_index pubkey (v :: rest) =
              (smallest_matching_index pubkey rest).map (fun i => i + 1) by
            simp [smallest_matching_index, h]] at hi
        rcases Option.map_eq_some'.mp hi with ⟨idx, hidx, rfl⟩
        refine ⟨?_, ?_⟩
        · rcases (ih.1 idx hidx).1 with ⟨w, hw, hwp⟩
          exact ⟨w, by simpa using hw, hwp⟩
        · intro j hj w hw
          cases j with
          | zero =>
            have hv : v = w := by simpa using hw
            rw [← hv]
            exact h
          | succ j2 =>
            have hw2 : rest[j2]? = some w := by simpa using hw
            exact (ih.1 idx hidx).2 j2 (by omega) w hw2
    · intro hnone w hw
      by_cases h : v.pubkey = pubkey
      · rw [show smallest_matching_index pubkey (v :: rest) = some 0 by
            simp [smallest_matching_index, h]] at hnone
        cases hnone
      · rw [show smallest_matching_index pubkey (v :: rest) =
              (smallest_matching_index pubkey rest).map (fun i => i + 1) by
            simp [smallest_matching_index, h]] at hnone
        have hrest : smallest_matching_index pubkey rest = none :=
          Option.map_eq_none'.mp hnone
        rcases List.mem_cons.mp hw with rfl | hmem
        · exact h
        · exact ih.2 hrest w hmem

/-! ### C3: per-slot transition step order -/

/-- Concrete externals for the C3 counterexample: the state root is 10, a
header's signed root is 20, and per-epoch processing records the slot it
observes in `epoch_data`. -/
def c3_externals : Externals :=
  { state_root_of := fun _ => 10
    header_signed_root := fun _ => 20
    body_root := fun _ => 0
    per_epoch := fun s => .ok { epoch_data := s.slot, validator_registry := s.validator_registry }
    per_block := fun _ _ => .error (.invalid 0)
    per_block_no_sig := fun _ _ _ _ => .error (.invalid 0)
    build_all_caches_ok := fun _ => true
    build_epoch_cache_ok := fun _ _ => true
    clock_slot := none
    add_block_ok := fun _ _ => false
    find_head := fun _ h => .ok h
    pool_rest := fun _ _ => 0 }

def c3_spec : ChainSpec :=
  { slots_per_epoch := 1, genesis_slot := 0, zero_hash := 0, empty_signature := 0 }

def c3_state : BeaconState :=
  { slot := 0
    latest_block_header :=
      { slot := 0, previous_block_root := 0, state_root := 0, block_body_root := 0, signature := 0 }
    latest_block_roots := [5]
    latest_state_roots := [6]
    validator_registry := []
    epoch_data := 99 }

/-- C3 counterexample: at a concrete state both the implemented transition
and the transition in the claim's step order succeed, yet produce different
states — the code writes the header's signed root (20), not the state root
(10), into the block-root ring, and runs the per-epoch transition *before*
the slot increment (recording slot 0, not slot 1). -/
theorem claim3_counterexample :
    per_slot_processing c3_externals c3_spec c3_state ≠
      per_slot_processing_claim c3_externals c3_spec c3_state ∧
    (per_slot_processing c3_externals c3_spec c3_state).toOption.isSome = true ∧
    (per_slot_processing_claim c3_externals c3_spec c3_state).toOption.isSome = true := by
  refine ⟨by decide, rfl, rfl⟩

/-- C3 (amended): the per-slot transition performs, in order: backfill of
the latest block header's zero state-root placeholder with the
pre-transition state root; caching of the pre-transition state root into
the state-root ring and of the (backfilled) header's signed root into the
block-root ring, both at the previous slot's index; the epoch-transition
procedure, run *before* the increment exactly when the upcoming slot is
the first slot of a new epoch; and finally the slot increment. -/
theorem claim3_amended (X : Externals) (spec : ChainSpec) (s : BeaconState) :
    per_slot_processing X spec s = per_slot_processing_amended X spec s := by
  unfold per_slot_processing per_slot_processing_amended
  rw [cache_state_char]
  by_cases hs : s.latest_state_roots.length = 0
  · simp [hs]
  · by_cases hb : s.latest_block_roots.length = 0
    · simp [hs, hb]
    · simp [hs, hb]

/-! ### C5: outcome classification -/

/-- C5: the classifier `is_invalid` is `true` exactly on the objectively invalid outcomes —
future slot, state-root mismatch and per-block invalidity — and `false` on
valid blocks, unknown parents, slot-processing errors and per-block
failures caused by an internal state error. -/
theorem claim5_is_invalid_classification :
    (∀ p b, (BlockProcessingOutcome.invalidBlock (.futureSlot p b)).is_invalid = true) ∧
    (BlockProcessingOutcome.invalidBlock .stateRootMismatch).is_invalid = true ∧
    (∀ n,
      (BlockProcessingOutcome.invalidBlock (.perBlockProcessingError (.invalid n))).is_invalid
        = true) ∧
    (∀ v, (BlockProcessingOutcome.validBlock v).is_invalid = false) ∧
    (BlockProcessingOutcome.invalidBlock .parentUnknown).is_invalid = false ∧
    (∀ e,
      (BlockProcessingOutcome.invalidBlock (.slotProcessingError e)).is_invalid = false) ∧
    (∀ n,
      (BlockProcessingOutcome.invalidBlock
        (.perBlockProcessingError (.beaconStateError n))).is_invalid = false) :=
  ⟨fun _ _ => rfl, rfl, fun _ => rfl, fun _ => rfl, rfl, fun _ => rfl, fun _ => rfl⟩

/-! ### C10: validator lookup -/

def c10_header : BeaconBlockHeader :=
  { slot := 0, previous_block_root := 0, state_root := 0, block_body_root := 0, signature := 0 }

/-- Head state for the C10 counterexample: registry contains pubkey 7. -/
def c10_head_state : BeaconState :=
  { slot := 0
    latest_block_header := c10_header
    latest_block_roots := []
    latest_state_roots := []
    validator_registry := [{ pubkey := 7 }]
    epoch_data := 0 }

/-- Working state for the C10 counterexample: empty registry. -/
def c10_working_state : BeaconState :=
  { slot := 0
    latest_block_header := c10_header
    latest_block_roots := []
    latest_state_roots := []
    validator_registry := []
    epoch_data := 0 }

def c10_block : BeaconBlock :=
  { slot := 0, previous_block_root := 0, state_root := 0, signature := 0
    body := { randao_reveal := 0, rest := 0 } }

def c10_chain : Chain :=
  { store := { blocks := [], states := [] }
    canonical_head :=
      { beacon_block := c10_block, beacon_block_root := 0
        beacon_state := c10_head_state, beacon_state_root := 0 }
    finalized_head :=
      { beacon_block := c10_block, beacon_block_root := 0
        beacon_state := c10_head_state, beacon_state_root := 0 }
    state := c10_working_state
    fork_choice_blocks := []
    op_pool := 0 }

/-- C10 counterexample: in `c10_chain` the *working* state's registry is
empty, so the claim (which reads the working state) demands `none` for
every key; the code reads the *canonical head* state's registry and
returns `some 0` for pubkey 7. -/
theorem claim10_counterexample :
    validator_index c10_chain 7 = some 0 ∧
    c10_chain.state.validator_registry = [] :=
  ⟨rfl, rfl⟩

/-- C10 (amended): the lookup `validator_index` returns `some i` where `i` is the
smallest index whose entry in the *canonical head* state's registry has
the given public key, and `none` when no entry does. -/
theorem claim10_amended (c : Chain) (pubkey : Nat) :
    validator_index c pubkey =
      smallest_matching_index pubkey c.canonical_head.beacon_state.validator_registry ∧
    (∀ i, validator_index c pubkey = some i →
      (∃ v, c.canonical_head.beacon_state.validator_registry[i]? = some v ∧
        v.pubkey = pubkey) ∧
      ∀ j, j < i → ∀ w,
        c.canonical_head.beacon_state.validator_registry[j]? = some w →
          w.pubkey ≠ pubkey) ∧
    (validator_index c pubkey = none →
      ∀ w ∈ c.canonical_head.beacon_state.validator_registry, w.pubkey ≠ pubkey) := by
  have he : validator_index c pubkey =
      smallest_matching_index pubkey c.canonical_head.beacon_state.validator_registry := by
    unfold validator_index
    rw [validator_index_loop_eq]
    cases smallest_matching_index pubkey c.canonical_head.beacon_state.validator_registry with
    | none => rfl
    | some i => simp
  refine ⟨he, ?_, ?_⟩
  · intro i hi
    rw [he] at hi
    exact (smallest_matching_index_spec pubkey
      c.canonical_head.beacon_state.validator_registry).1 i hi
  · intro hn
    rw [he] at hn
    exact (smallest_matching_index_spec pubkey
      c.canonical_head.beacon_state.validator_registry).2 hn

/-- Witness for C10 (amended): at `c10_chain` with pubkey 7 the lookup
returns index 0, the registry entry at 0 has pubkey 7, and minimality is
vacuous. -/
theorem claim10_amended_witness :
    validator_index c10_chain 7 =
      smallest_matching_index 7 c10_chain.canonical_head.beacon_state.validator_registry ∧
    (∃ v, c10_chain.canonical_head.beacon_state.validator_registry[0]? = some v ∧
      v.pubkey = 7) :=
  ⟨(claim10_amended c10_chain 7).1,
    ((claim10_amended c10_chain 7).2.1 0 rfl).1⟩

theorem store_get_block_put_block (st : Store) (h : Hash256) (b : BeaconBlock) :
    (st.put_block h b).get_block h = some b := by
  simp [Store.get_block, Store.put_block, List.find?]

theorem store_get_state_put_state (st : Store) (h : Hash256) (s : BeaconState) :
    (st.put_state h s).get_state h = some s := by
  simp [Store.get_state, Store.put_state, List.find?]

theorem store_get_block_put_state (st : Store) (h h2 : Hash256) (s : BeaconState) :
    (st.put_state h s).get_block h2 = st.get_block h2 := rfl

theorem store_get_state_put_block (st : Store) (h h2 : Hash256) (b : BeaconBlock) :
    (st.put_block h b).get_state h2 = st.get_state h2 := rfl

/-! ### C9: genesis initialisation -/

/-- C9: every successful `from_genesis` leaves both the canonical and the
finalized head equal to the genesis checkpoint, and the genesis block and
state retrievable from the Store by their canonical roots. -/
theorem claim9_from_genesis (X : Externals) (store : Store)
    (fc : List (BeaconBlock × Hash256)) (gs : BeaconState) (gb : BeaconBlock) (ch : Chain)
    (h : from_genesis X store fc gs gb = .ok ch) :
    ch.canonical_head =
      { beacon_block := gb, beacon_block_root := block_canonical_root X gb
        beacon_state := gs, beacon_state_root := X.state_root_of gs } ∧
    ch.finalized_head =
      { beacon_block := gb, beacon_block_root := block_canonical_root X gb
        beacon_state := gs, beacon_state_root := X.state_root_of gs } ∧
    ch.store.get_block (block_canonical_root X gb) = some gb ∧
    ch.store.get_state (X.state_root_of gs) = some gs := by
  unfold from_genesis at h
  by_cases hc : X.build_all_caches_ok gs
  · rw [if_pos hc] at h
    cases h
    refine ⟨rfl, rfl, ?_, ?_⟩
    · exact store_get_block_put_block _ _ _
    · rw [store_get_state_put_block]
      exact store_get_state_put_state _ _ _
  · rw [if_neg hc] at h
    cases h

/-- Externals used by several witnesses: trivial hashing and collaborators
that always succeed. -/
def w_externals : Externals :=
  { state_root_of := fun _ => 7
    header_signed_root := fun _ => 11
    body_root := fun _ => 0
    per_epoch := fun s => .ok { epoch_data := s.epoch_data, validator_registry := s.validator_registry }
    per_block := fun s _ =>
      .ok { epoch_data := s.epoch_data, validator_registry := s.validator_registry
            latest_block_header := s.latest_block_header }
    per_block_no_sig := fun s _ _ _ =>
      .ok { epoch_data := s.epoch_data, validator_registry := s.validator_registry
            latest_block_header := s.latest_block_header }
    build_all_caches_ok := fun _ => true
    build_epoch_cache_ok := fun _ _ => true
    clock_slot := some 1
    add_block_ok := fun _ _ => true
    find_head := fun _ h => .ok h
    pool_rest := fun _ _ => 0 }

def w_spec : ChainSpec :=
  { slots_per_epoch := 10, genesis_slot := 0, zero_hash := 99, empty_signature := 0 }

/-- Genesis state used by witnesses (slot 1, singleton rings). -/
def w_genesis_state : BeaconState :=
  { slot := 1
    latest_block_header :=
      { slot := 0, previous_block_root := 0, state_root := 1, block_body_root := 0, signature := 0 }
    latest_block_roots := [3]
    latest_state_roots := [4]
    validator_registry := []
    epoch_data := 0 }

/-- Genesis block used by witnesses. -/
def w_genesis_block : BeaconBlock :=
  { slot := 1, previous_block_root := 0, state_root := 7, signature := 0
    body := { randao_reveal := 0, rest := 0 } }

/-- The chain produced by the witness genesis run of C9. -/
def w_genesis_chain : Chain :=
  { store := { blocks := [(11, w_genesis_block)], states := [(7, w_genesis_state)] }
    canonical_head :=
      { beacon_block := w_genesis_block, beacon_block_root := 11
        beacon_state := w_genesis_state, beacon_state_root := 7 }
    finalized_head :=
      { beacon_block := w_genesis_block, beacon_block_root := 11
        beacon_state := w_genesis_state, beacon_state_root := 7 }
    state := w_genesis_state
    fork_choice_blocks := []
    op_pool := 0 }

/-- Witness for C9: a concrete genesis run really succeeds and the theorem
applies to it. -/
theorem claim9_witness :
    from_genesis w_externals { blocks := [], states := [] } [] w_genesis_state
        w_genesis_block = .ok w_genesis_chain ∧
    w_genesis_chain.store.get_block (block_canonical_root w_externals w_genesis_block) =
      some w_genesis_block :=
  ⟨rfl,
    (claim9_from_genesis w_externals { blocks := [], states := [] } [] w_genesis_state
      w_genesis_block w_genesis_chain rfl).2.2.1⟩

/-! ### C8: block production is read-only and root-consistent -/

theorem produce_block_char (X : Externals) (spec : ChainSpec) (c : Chain)
    (randao_reveal : Nat) :
    produce_block X spec c randao_reveal =
      (c,
        if X.build_epoch_cache_ok c.state .current then
          match get_block_root c.state (c.state.slot - 1) with
          | .error _ => .error .unableToGetBlockRootFromState
          | .ok pr =>
            match X.per_block_no_sig c.state c.state.slot pr
                { randao_reveal := randao_reveal
                  rest := X.pool_rest c.op_pool c.state } with
            | .error e => .error (.blockProcessingError e)
            | .ok d =>
              .ok ({ slot := c.state.slot
                     previous_block_root := pr
                     state_root := X.state_root_of (apply_block_delta c.state d)
                     signature := spec.empty_signature
                     body := { randao_reveal := randao_reveal
                               rest := X.pool_rest c.op_pool c.state } },
                   apply_block_delta c.state d)
        else .error .beaconStateError) := by
  unfold produce_block
  cases hcb : X.build_epoch_cache_ok c.state .current with
  | false => simp [hcb]
  | true =>
    simp only [hcb, if_true]
    cases hg : get_block_root c.state (c.state.slot - 1) with
    | error e => simp [hg]
    | ok pr =>
      simp only [hg]
      cases hp : X.per_block_no_sig c.state c.state.slot pr
          { randao_reveal := randao_reveal, rest := X.pool_rest c.op_pool c.state } with
      | error e => simp [hp]
      | ok d => simp [hp]

/-- C8: the producer `produce_block` never mutates the chain (success or failure), and on
success the returned block's declared state root is the canonical root of
the returned state, which is exactly the result of applying the produced
block (its slot, parent root and body) to a clone of the working state via
the signature-skipping block application. -/
theorem claim8_produce_block (X : Externals) (spec : ChainSpec) (c : Chain)
    (randao_reveal : Nat) :
    (produce_block X spec c randao_reveal).1 = c ∧
    ∀ b s2, (produce_block X spec c randao_reveal).2 = .ok (b, s2) →
      b.slot = c.state.slot ∧
      b.state_root = X.state_root_of s2 ∧
      ∃ d, X.per_block_no_sig c.state c.state.slot b.previous_block_root b.body = .ok d ∧
        s2 = apply_block_delta c.state d := by
  constructor
  · rw [produce_block_char]
  · intro b s2 h
    rw [produce_block_char] at h
    dsimp only at h
    cases hcb : X.build_epoch_cache_ok c.state .current with
    | false => simp [hcb] at h
    | true =>
      simp only [hcb, if_true] at h
      cases hg : get_block_root c.state (c.state.slot - 1) with
      | error e =>
        simp [hg] at h
      | ok pr =>
        simp only [hg] at h
        cases hp : X.per_block_no_sig c.state c.state.slot pr
            { randao_reveal := randao_reveal, rest := X.pool_rest c.op_pool c.state } with
        | error e => simp [hp] at h
        | ok d =>
          simp only [hp, Except.ok.injEq, Prod.mk.injEq] at h
          obtain ⟨hb, hs⟩ := h
          subst hb
          subst hs
          exact ⟨rfl, rfl, d, hp, rfl⟩

/-- Working chain used by the C8 witness. -/
def c8_chain : Chain :=
  { store := { blocks := [], states := [] }
    canonical_head :=
      { beacon_block := w_genesis_block, beacon_block_root := 11
        beacon_state := w_genesis_state, beacon_state_root := 7 }
    finalized_head :=
      { beacon_block := w_genesis_block, beacon_block_root := 11
        beacon_state := w_genesis_state, beacon_state_root := 7 }
    state := w_genesis_state
    fork_choice_blocks := []
    op_pool := 0 }

/-- Witness for C8: a concrete production run succeeds and the theorem's
conclusions hold at it. -/
theorem claim8_witness :
    (produce_block w_externals w_spec c8_chain 5).1 = c8_chain ∧
    ({ slot := 1, previous_block_root := 3, state_root := 7, signature := 0
       body := { randao_reveal := 5, rest := 0 } : BeaconBlock }).slot = c8_chain.state.slot ∧
    ∃ d, w_externals.per_block_no_sig c8_chain.state c8_chain.state.slot 3
        { randao_reveal := 5, rest := 0 } = .ok d ∧
      w_genesis_state = apply_block_delta c8_chain.state d := by
  have h := claim8_produce_block w_externals w_spec c8_chain 5
  have h2 := h.2
    { slot := 1, previous_block_root := 3, state_root := 7, signature := 0
      body := { randao_reveal := 5, rest := 0 } } w_genesis_state rfl
  exact ⟨h.1, h2.1, h2.2.2⟩

/-! ### C4: invalid outcomes mutate nothing -/

/-- C4: whenever `process_block` reports an invalid-block outcome (future
slot, unknown parent, slot-processing failure, per-block failure or
state-root mismatch) the chain — Store, both heads, the working state and
fork choice — is unchanged; and a future-slot rejection is decided before
any Store access: it is the same for every Store content. -/
theorem claim4_invalid_no_mutation (X : Externals) (spec : ChainSpec) (c : Chain)
    (b : BeaconBlock) :
    (∀ c2 r, process_block X spec c b = (c2, .ok (.invalidBlock r)) → c2 = c) ∧
    (c.state.slot < b.slot → ∀ st : Store,
      process_block X spec { c with store := st } b =
        ({ c with store := st },
          .ok (.invalidBlock (.futureSlot c.state.slot b.slot)))) := by
  constructor
  · intro c2 r h
    simp only [process_block] at h
    repeat' split at h
    all_goals injection h with h1 h2
    all_goals first
      | exact h1.symm
      | (injection h2 with h3; injection h3)
      | injection h2
  · intro hf st
    unfold process_block
    rw [if_pos hf]

/-- Block for the C4 witness: parent root 77 is unknown to the store. -/
def c4_block : BeaconBlock :=
  { slot := 1, previous_block_root := 77, state_root := 0, signature := 0
    body := { randao_reveal := 0, rest := 0 } }

/-- Block for the C4 witness future-slot case: slot 2 is ahead of the
working state's slot 1. -/
def c4_future_block : BeaconBlock :=
  { slot := 2, previous_block_root := 77, state_root := 0, signature := 0
    body := { randao_reveal := 0, rest := 0 } }

/-- Witness for C4: a concrete parent-unknown rejection leaves the chain
unchanged, and a concrete future-slot rejection is independent of the
Store. -/
theorem claim4_witness :
    (process_block w_externals w_spec c8_chain c4_block).1 = c8_chain ∧
    process_block w_externals w_spec c8_chain c4_future_block =
      (c8_chain, .ok (.invalidBlock (.futureSlot 1 2))) := by
  constructor
  · exact (claim4_invalid_no_mutation w_externals w_spec c8_chain c4_block).1
      (process_block w_externals w_spec c8_chain c4_block).1 .parentUnknown rfl
  · exact (claim4_invalid_no_mutation w_externals w_spec c8_chain c4_future_block).2
      (by decide) { blocks := [], states := [] }

/-! ### C1: accepted blocks are persisted and the head update rule -/

theorem update_state_shape (X : Externals) (spec : ChainSpec) (c : Chain) (s : BeaconState) :
    (update_state X spec c s).1.store = c.store ∧
    (update_state X spec c s).1.canonical_head = c.canonical_head ∧
    (update_state X spec c s).1.finalized_head = c.finalized_head ∧
    (update_state X spec c s).1.fork_choice_blocks = c.fork_choice_blocks ∧
    (update_state X spec c s).1.op_pool = c.op_pool := by
  unfold update_state
  cases X.clock_slot with
  | none => simp
  | some p =>
    cases hadv : advance_slots X spec s (p - s.slot) with
    | error e => simp [hadv]
    | ok s2 =>
      cases hb : X.build_all_caches_ok s2 with
      | false => simp [hadv, hb]
      | true => simp [hadv, hb]

theorem update_state_success (X : Externals) (spec : ChainSpec) (c : Chain) (s : BeaconState) :
    ∀ u, (update_state X spec c s).2 = .ok u →
      ∃ p s2, X.clock_slot = some p ∧
        advance_slots X spec s (p - s.slot) = .ok s2 ∧
        X.build_all_caches_ok s2 = true ∧
        (update_state X spec c s).1 = { c with state := s2 } := by
  unfold update_state
  cases X.clock_slot with
  | none =>
    intro u h
    simp at h
  | some p =>
    cases hadv : advance_slots X spec s (p - s.slot) with
    | error e =>
      intro u h
      simp [hadv] at h
    | ok s2 =>
      cases hb : X.build_all_caches_ok s2 with
      | false =>
        intro u h
        simp [hadv, hb] at h
      | true =>
        intro u _
        exact ⟨p, s2, rfl, hadv, hb, by simp [hadv, hb]⟩

theorem update_state_fail (X : Externals) (spec : ChainSpec) (c : Chain) (s : BeaconState) :
    ∀ e, (update_state X spec c s).2 = .error e → (update_state X spec c s).1 = c := by
  unfold update_state
  cases X.clock_slot with
  | none =>
    intro e _
    rfl
  | some p =>
    cases hadv : advance_slots X spec s (p - s.slot) with
    | error e2 =>
      intro e _
      simp [hadv]
    | ok s2 =>
      cases hb : X.build_all_caches_ok s2 with
      | false =>
        intro e _
        simp [hadv, hb]
      | true =>
        intro e h
        simp [hadv, hb] at h

/-- C1: every block accepted by `process_block` (outcome `ValidBlock`) is
persisted in the Store under its canonical root together with its
post-state under the post-state's root (equal to the block's declared
state root), the block is handed to fork choice, and the canonical head
and working state are updated from this block/state exactly when the
block's parent root equals the canonical head's block root at the time of
the check (the working state being this post-state advanced to the clock
slot — the post-state itself whenever the clock is not ahead of it). -/
theorem claim1_process_block_success (X : Externals) (spec : ChainSpec) (c : Chain)
    (b : BeaconBlock) (c2 : Chain)
    (h : process_block X spec c b = (c2, .ok (.validBlock .processed))) :
    ∃ s2,
      c2.store.get_block (block_canonical_root X b) = some b ∧
      c2.store.get_state b.state_root = some s2 ∧
      X.state_root_of s2 = b.state_root ∧
      c2.fork_choice_blocks = c.fork_choice_blocks ++ [(b, block_canonical_root X b)] ∧
      (c.canonical_head.beacon_block_root = b.previous_block_root →
        c2.canonical_head =
          { beacon_block := b, beacon_block_root := block_canonical_root X b
            beacon_state := s2, beacon_state_root := b.state_root } ∧
        ∃ present, X.clock_slot = some present ∧
          advance_slots X spec s2 (present - s2.slot) = .ok c2.state ∧
          (present ≤ s2.slot → c2.state = s2)) ∧
      (c.canonical_head.beacon_block_root ≠ b.previous_block_root →
        c2.canonical_head = c.canonical_head ∧ c2.state = c.state) := by
  simp only [process_block] at h
  by_cases hf : c.state.slot < b.slot
  · rw [if_pos hf] at h
    injection h with h1 h2
    injection h2 with h3
    injection h3
  · rw [if_neg hf] at h
    cases hpb : c.store.get_block b.previous_block_root with
    | none =>
      simp only [hpb] at h
      injection h with h1 h2
      injection h2 with h3
      injection h3
    | some parent_block =>
      simp only [hpb] at h
      cases hps : c.store.get_state parent_block.state_root with
      | none =>
        simp only [hps] at h
        injection h with h1 h2
        injection h2
      | some parent_state =>
        simp only [hps] at h
        cases hadv : advance_slots X spec parent_state (b.slot - parent_state.slot) with
        | error e =>
          simp only [hadv] at h
          injection h with h1 h2
          injection h2 with h3
          injection h3
        | ok state1 =>
          simp only [hadv] at h
          cases hper : X.per_block state1 b with
          | error e =>
            simp only [hper] at h
            injection h with h1 h2
            injection h2 with h3
            injection h3
          | ok delta =>
            simp only [hper] at h
            by_cases hroot :
                b.state_root ≠ X.state_root_of (apply_block_delta state1 delta)
            · rw [if_pos hroot] at h
              injection h with h1 h2
              injection h2 with h3
              injection h3
            · rw [if_neg hroot] at h
              have hrooteq : b.state_root = X.state_root_of (apply_block_delta state1 delta) :=
                not_not.mp hroot
              cases hfc : X.add_block_ok b (block_canonical_root X b) with
              | false =>
                simp only [hfc] at h
                injection h with h1 h2
                injection h2
              | true =>
                simp only [hfc, if_true] at h
                by_cases hh : c.canonical_head.beacon_block_root = b.previous_block_root
                · simp only [hh, if_pos] at h
                  cases hu : (update_state X spec
                      { store := (c.store.put_block (block_canonical_root X b) b).put_state
                          (X.state_root_of (apply_block_delta state1 delta))
                          (apply_block_delta state1 delta)
                        canonical_head :=
                          { beacon_block := b
                            beacon_block_root := block_canonical_root X b
                            beacon_state := apply_block_delta state1 delta
                            beacon_state_root :=
                              X.state_root_of (apply_block_delta state1 delta) }
                        finalized_head := c.finalized_head
                        state := c.state
                        fork_choice_blocks :=
                          c.fork_choice_blocks ++ [(b, block_canonical_root X b)]
                        op_pool := c.op_pool } (apply_block_delta state1 delta)).2 with
                  | error e =>
                    rw [hu] at h
                    injection h with h1 h2
                    injection h2
                  | ok u =>
                    rw [hu] at h
                    injection h with h1 h2
                    obtain ⟨p, s3, hp, hadv2, hcache, hres⟩ :=
                      update_state_success X spec _ _ u hu
                    rw [hres] at h1
                    refine ⟨apply_block_delta state1 delta, ?_, ?_, hrooteq.symm, ?_, ?_, ?_⟩
                    · rw [← h1]
                      exact store_get_block_put_block _ _ _
                    · rw [← h1]
                      show ((c.store.put_block (block_canonical_root X b) b).put_state
                          (X.state_root_of (apply_block_delta state1 delta))
                          (apply_block_delta state1 delta)).get_state b.state_root =
                        some (apply_block_delta state1 delta)
                      rw [hrooteq]
                      exact store_get_state_put_state _ _ _
                    · rw [← h1]
                    · intro _
                      constructor
                      · rw [← h1, hrooteq]
                      · refine ⟨p, hp, ?_, ?_⟩
                        · rw [← h1]
                          exact hadv2
                        · intro hle
                          rw [← h1]
                          have hz : p - (apply_block_delta state1 delta).slot = 0 :=
                            Nat.sub_eq_zero_of_le hle
                          rw [hz] at hadv2
                          injection hadv2 with hs3
                          exact hs3.symm
                    · intro hne
                      exact absurd hh hne
                · simp only [hh, if_neg, if_false] at h
                  injection h with h1 h2
                  refine ⟨apply_block_delta state1 delta, ?_, ?_, hrooteq.symm, ?_, ?_, ?_⟩
                  · rw [← h1]
                    exact store_get_block_put_block _ _ _
                  · rw [← h1]
                    show ((c.store.put_block (block_canonical_root X b) b).put_state
                        (X.state_root_of (apply_block_delta state1 delta))
                        (apply_block_delta state1 delta)).get_state b.state_root =
                      some (apply_block_delta state1 delta)
                    rw [hrooteq]
                    exact store_get_state_put_state _ _ _
                  · rw [← h1]
                  · intro hpos
                    exact absurd hpos hh
                  · intro _
                    rw [← h1]
                    exact ⟨rfl, rfl⟩

/-- Parent block for the C1 witness run. -/
def c1_parent_block : BeaconBlock :=
  { slot := 0, previous_block_root := 0, state_root := 7, signature := 0
    body := { randao_reveal := 0, rest := 0 } }

/-- Accepted block for the C1 witness run: slot 1, extending the head. -/
def c1_block : BeaconBlock :=
  { slot := 1, previous_block_root := 5, state_root := 7, signature := 0
    body := { randao_reveal := 0, rest := 0 } }

/-- Chain for the C1 witness run. -/
def c1_chain : Chain :=
  { store := { blocks := [(5, c1_parent_block)], states := [(7, w_genesis_state)] }
    canonical_head :=
      { beacon_block := c1_parent_block, beacon_block_root := 5
        beacon_state := w_genesis_state, beacon_state_root := 7 }
    finalized_head :=
      { beacon_block := c1_parent_block, beacon_block_root := 5
        beacon_state := w_genesis_state, beacon_state_root := 7 }
    state := w_genesis_state
    fork_choice_blocks := []
    op_pool := 0 }

/-- Resulting chain of the C1 witness run. -/
def c1_result : Chain :=
  { store :=
      { blocks := [(11, c1_block), (5, c1_parent_block)]
        states := [(7, w_genesis_state), (7, w_genesis_state)] }
    canonical_head :=
      { beacon_block := c1_block, beacon_block_root := 11
        beacon_state := w_genesis_state, beacon_state_root := 7 }
    finalized_head :=
      { beacon_block := c1_parent_block, beacon_block_root := 5
        beacon_state := w_genesis_state, beacon_state_root := 7 }
    state := w_genesis_state
    fork_choice_blocks := [(c1_block, 11)]
    op_pool := 0 }

/-- Witness for C1: a concrete acceptance run succeeds with the eager head
update and the theorem applies to it. -/
theorem claim1_witness :
    ∃ s2,
      c1_result.store.get_block (block_canonical_root w_externals c1_block) = some c1_block ∧
      c1_result.store.get_state c1_block.state_root = some s2 ∧
      w_externals.state_root_of s2 = c1_block.state_root ∧
      c1_result.fork_choice_blocks =
        c1_chain.fork_choice_blocks ++ [(c1_block, block_canonical_root w_externals c1_block)] ∧
      (c1_chain.canonical_head.beacon_block_root = c1_block.previous_block_root →
        c1_result.canonical_head =
          { beacon_block := c1_block
            beacon_block_root := block_canonical_root w_externals c1_block
            beacon_state := s2, beacon_state_root := c1_block.state_root } ∧
        ∃ present, w_externals.clock_slot = some present ∧
          advance_slots w_externals w_spec s2 (present - s2.slot) = .ok c1_result.state ∧
          (present ≤ s2.slot → c1_result.state = s2)) ∧
      (c1_chain.canonical_head.beacon_block_root ≠ c1_block.previous_block_root →
        c1_result.canonical_head = c1_chain.canonical_head ∧
        c1_result.state = c1_chain.state) :=
  claim1_process_block_success w_externals w_spec c1_chain c1_block c1_result rfl

/-! ### C6: iterated per-slot transitions -/

theorem list_getD_set_self {i : Nat} (l : List Nat) (a : Nat) (h : i < l.length) :
    (l.set i a).getD i 0 = a := by
  simp [List.getD_eq_getElem?_getD, List.getElem?_set_eq_of_lt a h]

theorem cache_state_ok_fields (X : Externals) (spec : ChainSpec) (s s1 : BeaconState)
    (h : cache_state X spec s = .ok s1) :
    s1.slot = s.slot ∧
    s1.latest_state_roots =
      s.latest_state_roots.set (s.slot % s.latest_state_roots.length) (X.state_root_of s) ∧
    s1.latest_state_roots.length = s.latest_state_roots.length ∧
    s.latest_state_roots.length ≠ 0 := by
  rw [cache_state_char] at h
  by_cases hs : s.latest_state_roots.length = 0
  · rw [if_pos hs] at h
    cases h
  · rw [if_neg hs] at h
    by_cases hb : s.latest_block_roots.length = 0
    · rw [if_pos hb] at h
      cases h
    · rw [if_neg hb] at h
      injection h with h1
      refine ⟨by rw [← h1], by rw [← h1], ?_, hs⟩
      rw [← h1]
      simp

theorem per_slot_ring (X : Externals) (spec : ChainSpec) (s t : BeaconState)
    (h : per_slot_processing X spec s = .ok t) :
    t.slot = s.slot + 1 ∧ get_state_root t s.slot = .ok (X.state_root_of s) := by
  unfold per_slot_processing at h
  cases hc : cache_state X spec s with
  | error e =>
    simp only [hc] at h
    injection h
  | ok s1 =>
    simp only [hc] at h
    obtain ⟨hslot, hring, hlen, hne⟩ := cache_state_ok_fields X spec s s1 hc
    have hfin : ∀ t2 : BeaconState,
        t2.slot = s1.slot + 1 → t2.latest_state_roots = s1.latest_state_roots →
        t2.slot = s.slot + 1 ∧ get_state_root t2 s.slot = .ok (X.state_root_of s) := by
      intro t2 h2slot h2ring
      constructor
      · rw [h2slot, hslot]
      · unfold get_state_root
        rw [h2ring, hring, h2slot, hslot]
        have hlen2 : (s.latest_state_roots.set (s.slot % s.latest_state_roots.length)
            (X.state_root_of s)).length = s.latest_state_roots.length := by simp
        rw [if_pos ?_]
        · rw [hlen2]
          exact congrArg Except.ok
            (list_getD_set_self s.latest_state_roots (X.state_root_of s)
              (Nat.mod_lt _ (Nat.pos_of_ne_zero hne)))
        · constructor
          · exact Nat.lt_succ_self s.slot
          · rw [hlen2]
            have := Nat.pos_of_ne_zero hne
            omega
    by_cases he : (s1.slot + 1) % spec.slots_per_epoch = 0
    · rw [if_pos he] at h
      cases hp : X.per_epoch s1 with
      | error c =>
        simp only [hp] at h
        injection h
      | ok d =>
        simp only [hp] at h
        injection h with h1
        exact hfin t (by rw [← h1]) (by rw [← h1])
    · rw [if_neg he] at h
      injection h with h1
      exact hfin t (by rw [← h1]) (by rw [← h1])

theorem advance_slots_unfold (X : Externals) (spec : ChainSpec) (s : BeaconState) (n : Nat) :
    advance_slots X spec s (n + 1) =
      match per_slot_processing X spec s with
      | Except.error e => Except.error e
      | Except.ok s2 => advance_slots X spec s2 n := rfl

theorem advance_slots_snoc (X : Externals) (spec : ChainSpec) (n : Nat) :
    ∀ s : BeaconState,
      advance_slots X spec s (n + 1) =
        match advance_slots X spec s n with
        | Except.error e => Except.error e
        | Except.ok t => per_slot_processing X spec t := by
  induction n with
  | zero =>
    intro s
    rw [advance_slots_unfold]
    cases hp : per_slot_processing X spec s with
    | error e => simp [hp, advance_slots]
    | ok s2 => simp [hp, advance_slots]
  | succ n ih =>
    intro s
    rw [advance_slots_unfold, advance_slots_unfold X spec s n]
    cases hp : per_slot_processing X spec s with
    | error e => rfl
    | ok s2 => exact ih s2

theorem advance_slots_slot (X : Externals) (spec : ChainSpec) (n : Nat) :
    ∀ s t : BeaconState, advance_slots X spec s n = .ok t → t.slot = s.slot + n := by
  induction n with
  | zero =>
    intro s t h
    injection h with h1
    rw [← h1]
    omega
  | succ n ih =>
    intro s t h
    rw [advance_slots_unfold] at h
    cases hp : per_slot_processing X spec s with
    | error e =>
      simp only [hp] at h
      injection h
    | ok s2 =>
      simp only [hp] at h
      have h2 := ih s2 t h
      have h3 := (per_slot_ring X spec s s2 hp).1
      omega

/-- C6: when `N ≥ 1` per-slot transitions from a state at slot `S` all
succeed, the result sits at slot exactly `S + N` (each call advances by
one), and its historical state-root ring holds, at the index for slot
`S + N - 1`, the canonical root of the intermediate state as it was at
slot `S + N - 1`. -/
theorem claim6_slot_iteration (X : Externals) (spec : ChainSpec) (s : BeaconState)
    (N : Nat) (hN : 1 ≤ N) (sN : BeaconState)
    (h : advance_slots X spec s N = .ok sN) :
    sN.slot = s.slot + N ∧
    ∃ sp, advance_slots X spec s (N - 1) = .ok sp ∧
      sp.slot = s.slot + N - 1 ∧
      get_state_root sN (s.slot + N - 1) = .ok (X.state_root_of sp) := by
  obtain ⟨M, rfl⟩ : ∃ M, N = M + 1 := ⟨N - 1, by omega⟩
  rw [advance_slots_snoc] at h
  cases ha : advance_slots X spec s M with
  | error e =>
    rw [ha] at h
    cases h
  | ok sp =>
    rw [ha] at h
    have hps := per_slot_ring X spec sp sN h
    have hsp : sp.slot = s.slot + M := advance_slots_slot X spec M s sp ha
    have hidx : s.slot + (M + 1) - 1 = sp.slot := by omega
    refine ⟨by omega, sp, by simpa using ha, by omega, ?_⟩
    rw [hidx]
    exact hps.2

/-- State for the C6 witness: slot 0, singleton rings, header carrying the
zero placeholder (99 under `w_spec`). -/
def c6_state : BeaconState :=
  { slot := 0
    latest_block_header :=
      { slot := 0, previous_block_root := 0, state_root := 99, block_body_root := 0
        signature := 0 }
    latest_block_roots := [3]
    latest_state_roots := [4]
    validator_registry := []
    epoch_data := 0 }

/-- Result of one per-slot transition from `c6_state` under `w_externals`. -/
def c6_result : BeaconState :=
  { slot := 1
    latest_block_header :=
      { slot := 0, previous_block_root := 0, state_root := 7, block_body_root := 0
        signature := 0 }
    latest_block_roots := [11]
    latest_state_roots := [7]
    validator_registry := []
    epoch_data := 0 }

/-- Witness for C6: one concrete transition succeeds and the theorem
applies to it. -/
theorem claim6_witness :
    c6_result.slot = c6_state.slot + 1 ∧
    ∃ sp, advance_slots w_externals w_spec c6_state (1 - 1) = .ok sp ∧
      sp.slot = c6_state.slot + 1 - 1 ∧
      get_state_root c6_result (c6_state.slot + 1 - 1) =
        .ok (w_externals.state_root_of sp) :=
  claim6_slot_iteration w_externals w_spec c6_state 1 (by decide) c6_result rfl

/-! ### C7: the working-state-slot invariant -/

/-- The invariant of section 3: the working state's slot is at least the
canonical head block's slot. -/
def head_slot_invariant (c : Chain) : Prop :=
  c.canonical_head.beacon_block.slot ≤ c.state.slot

instance (c : Chain) : Decidable (head_slot_invariant c) :=
  inferInstanceAs (Decidable (c.canonical_head.beacon_block.slot ≤ c.state.slot))

/-- Store consistency: a stored block's stored post-state is at least as
advanced as the block. -/
def store_state_consistent (c : Chain) : Prop :=
  ∀ h b, c.store.get_block h = some b →
    ∀ s, c.store.get_state b.state_root = some s → b.slot ≤ s.slot

theorem advance_slots_ge (X : Externals) (spec : ChainSpec) (n : Nat)
    (s t : BeaconState) (h : advance_slots X spec s n = .ok t) : s.slot ≤ t.slot := by
  have := advance_slots_slot X spec n s t h
  omega

theorem update_state_fst_state (X : Externals) (spec : ChainSpec) (c : Chain)
    (s : BeaconState) :
    (update_state X spec c s).1 = c ∨
    ∃ s2, (update_state X spec c s).1 = { c with state := s2 } ∧ s.slot ≤ s2.slot := by
  unfold update_state
  cases X.clock_slot with
  | none => exact Or.inl rfl
  | some p =>
    cases hadv : advance_slots X spec s (p - s.slot) with
    | error e => simp [hadv]
    | ok s2 =>
      cases hb : X.build_all_caches_ok s2 with
      | false => simp [hadv, hb]
      | true =>
        refine Or.inr ⟨s2, by simp [hadv, hb], ?_⟩
        exact advance_slots_ge X spec _ s s2 hadv

theorem catchup_loop_ge (X : Externals) (spec : ChainSpec) (n : Nat) :
    ∀ s : BeaconState, s.slot ≤ (catchup_loop X spec s n).1.slot := by
  induction n with
  | zero =>
    intro s
    exact Nat.le_refl _
  | succ n ih =>
    intro s
    show s.slot ≤ (if X.build_epoch_cache_ok s .nextWithoutRegistryChange then _ else _ : BeaconState × Except BeaconChainError Unit).1.slot
    by_cases h1 : X.build_epoch_cache_ok s .nextWithoutRegistryChange
    · rw [if_pos h1]
      by_cases h2 : X.build_epoch_cache_ok s .nextWithRegistryChange
      · rw [if_pos h2]
        cases hp : per_slot_processing X spec s with
        | error e => simp [hp]
        | ok s2 =>
          simp only [hp]
          have := ih s2
          have h3 := (per_slot_ring X spec s s2 hp).1
          omega
      · rw [if_neg h2]
    · rw [if_neg h1]

/-- State at slot 0 fed to `update_state` in the C7 counterexample. -/
def c7_low_state : BeaconState :=
  { slot := 0
    latest_block_header := c10_header
    latest_block_roots := [3]
    latest_state_roots := [4]
    validator_registry := []
    epoch_data := 0 }

/-- Externals for the C7 counterexample: the slot clock reads slot 0. -/
def c7_externals : Externals :=
  { w_externals with clock_slot := some 0 }

/-- Chain for the C7 counterexample: head block at slot 1, working state at
slot 1 — the invariant holds. -/
def c7_chain : Chain :=
  { store := { blocks := [], states := [] }
    canonical_head :=
      { beacon_block := c1_block, beacon_block_root := 11
        beacon_state := w_genesis_state, beacon_state_root := 7 }
    finalized_head :=
      { beacon_block := c1_block, beacon_block_root := 11
        beacon_state := w_genesis_state, beacon_state_root := 7 }
    state := w_genesis_state
    fork_choice_blocks := []
    op_pool := 0 }

/-- C7 counterexample: `update_state`, called with a state older than the
canonical head block while the clock is behind, succeeds and breaks the
invariant — so the claim that every such operation preserves it fails. -/
theorem claim7_counterexample :
    head_slot_invariant c7_chain ∧
    (update_state c7_externals w_spec c7_chain c7_low_state).2 = .ok () ∧
    ¬ head_slot_invariant (update_state c7_externals w_spec c7_chain c7_low_state).1 := by
  refine ⟨by decide, rfl, by decide⟩

/-- C7 (amended): the invariant holds after `from_genesis` provided the
genesis state is at least as advanced as the genesis block; it is
preserved unconditionally by `process_block` (including its eager head
update) and by `catchup_state`; by `update_state` provided the supplied
state's slot is at least the canonical head block's slot; and by a
*successful* fork-choice run provided every stored block's stored
post-state is at least as advanced as the block. -/
theorem claim7_amended :
    (∀ (X : Externals) (store : Store) (fc : List (BeaconBlock × Hash256))
        (gs : BeaconState) (gb : BeaconBlock) (ch : Chain),
      gb.slot ≤ gs.slot → from_genesis X store fc gs gb = .ok ch →
        head_slot_invariant ch) ∧
    (∀ (X : Externals) (spec : ChainSpec) (c : Chain) (b : BeaconBlock),
      head_slot_invariant c → head_slot_invariant (process_block X spec c b).1) ∧
    (∀ (X : Externals) (spec : ChainSpec) (c : Chain) (s : BeaconState),
      head_slot_invariant c → c.canonical_head.beacon_block.slot ≤ s.slot →
        head_slot_invariant (update_state X spec c s).1) ∧
    (∀ (X : Externals) (spec : ChainSpec) (c : Chain),
      head_slot_invariant c → head_slot_invariant (catchup_state X spec c).1) ∧
    (∀ (X : Externals) (spec : ChainSpec) (c : Chain) (c2 : Chain),
      head_slot_invariant c → store_state_consistent c →
        run_fork_choice X spec c = (c2, .ok ()) → head_slot_invariant c2) := by
  refine ⟨?_, ?_, ?_, ?_, ?_⟩
  · intro X store fc gs gb ch hle h
    unfold from_genesis at h
    by_cases hc : X.build_all_caches_ok gs
    · rw [if_pos hc] at h
      cases h
      exact hle
    · rw [if_neg hc] at h
      cases h
  · intro X spec c b hInv
    unfold process_block
    by_cases hf : c.state.slot < b.slot
    · rw [if_pos hf]
      exact hInv
    · rw [if_neg hf]
      cases hpb : c.store.get_block b.previous_block_root with
      | none => exact hInv
      | some parent_block =>
        simp only
        cases hps : c.store.get_state parent_block.state_root with
        | none => exact hInv
        | some parent_state =>
          simp only
          cases hadv : advance_slots X spec parent_state (b.slot - parent_state.slot) with
          | error e => exact hInv
          | ok state1 =>
            simp only
            cases hper : X.per_block state1 b with
            | error e => exact hInv
            | ok delta =>
              simp only
              by_cases hroot :
                  b.state_root ≠ X.state_root_of (apply_block_delta state1 delta)
              · rw [if_pos hroot]
                exact hInv
              · rw [if_neg hroot]
                cases hfc : X.add_block_ok b (block_canonical_root X b) with
                | false =>
                  simp only [Bool.false_eq_true, if_false]
                  exact hInv
                | true =>
                  simp only [if_true]
                  by_cases hh :
                      c.canonical_head.beacon_block_root = b.previous_block_root
                  · simp only [hh, if_pos]
                    have hs1 : b.slot ≤ state1.slot := by
                      have := advance_slots_slot X spec _ _ _ hadv
                      omega
                    rcases update_state_fst_state X spec
                        { store := (c.store.put_block (block_canonical_root X b) b).put_state
                            (X.state_root_of (apply_block_delta state1 delta))
                            (apply_block_delta state1 delta)
                          canonical_head :=
                            { beacon_block := b
                              beacon_block_root := block_canonical_root X b
                              beacon_state := apply_block_delta state1 delta
                              beacon_state_root :=
                                X.state_root_of (apply_block_delta state1 delta) }
                          finalized_head := c.finalized_head
                          state := c.state
                          fork_choice_blocks :=
                            c.fork_choice_blocks ++ [(b, block_canonical_root X b)]
                          op_pool := c.op_pool } (apply_block_delta state1 delta) with
                        hum | hum
                    · cases hu : (update_state X spec _ (apply_block_delta state1 delta)).2 with
                      | ok u =>
                        simp only [hu]
                        show head_slot_invariant (update_state X spec _ _).1
                        rw [hum]
                        show b.slot ≤ c.state.slot
                        omega
                      | error e =>
                        simp only [hu]
                        show head_slot_invariant (update_state X spec _ _).1
                        rw [hum]
                        show b.slot ≤ c.state.slot
                        omega
                    · obtain ⟨s2, heq, hge⟩ := hum
                      cases hu : (update_state X spec _ (apply_block_delta state1 delta)).2 with
                      | ok u =>
                        simp only [hu]
                        show head_slot_invariant (update_state X spec _ _).1
                        rw [heq]
                        show b.slot ≤ s2.slot
                        have : (apply_block_delta state1 delta).slot = state1.slot := rfl
                        omega
                      | error e =>
                        simp only [hu]
                        show head_slot_invariant (update_state X spec _ _).1
                        rw [heq]
                        show b.slot ≤ s2.slot
                        have : (apply_block_delta state1 delta).slot = state1.slot := rfl
                        omega
                  · simp only [hh, if_neg, if_false]
                    exact hInv
  · intro X spec c s hInv hle
    rcases update_state_fst_state X spec c s with hum | ⟨s2, heq, hge⟩
    · rw [hum]
      exact hInv
    · rw [heq]
      show c.canonical_head.beacon_block.slot ≤ s2.slot
      omega
  · intro X spec c hInv
    unfold catchup_state
    cases X.clock_slot with
    | none => exact hInv
    | some p =>
      simp only
      have hge := catchup_loop_ge X spec (p - c.state.slot) c.state
      cases hr : (catchup_loop X spec c.state (p - c.state.slot)).2 with
      | error e =>
        simp only
        show c.canonical_head.beacon_block.slot ≤
          (catchup_loop X spec c.state (p - c.state.slot)).1.slot
        have hi : c.canonical_head.beacon_block.slot ≤ c.state.slot := hInv
        omega
      | ok u =>
        simp only
        by_cases hb : X.build_all_caches_ok (catchup_loop X spec c.state (p - c.state.slot)).1
        · rw [if_pos hb]
          show c.canonical_head.beacon_block.slot ≤
            (catchup_loop X spec c.state (p - c.state.slot)).1.slot
          have hi : c.canonical_head.beacon_block.slot ≤ c.state.slot := hInv
          omega
        · rw [if_neg hb]
          show c.canonical_head.beacon_block.slot ≤
            (catchup_loop X spec c.state (p - c.state.slot)).1.slot
          have hi : c.canonical_head.beacon_block.slot ≤ c.state.slot := hInv
          omega
  · intro X spec c c2 hInv hCons h
    unfold run_fork_choice at h
    cases hfh : X.find_head c.fork_choice_blocks c.finalized_head.beacon_block_root with
    | error code =>
      simp only [hfh] at h
      injection h with h1 h2
      injection h2
    | ok new_head =>
      simp only [hfh] at h
      by_cases hne : new_head = c.finalized_head.beacon_block_root
      · rw [if_pos hne] at h
        injection h with h1 h2
        rw [← h1]
        exact hInv
      · rw [if_neg hne] at h
        cases hgb : c.store.get_block new_head with
        | none =>
          simp only [hgb] at h
          injection h with h1 h2
          injection h2
        | some block =>
          simp only [hgb] at h
          cases hgs : c.store.get_state block.state_root with
          | none =>
            simp only [hgs] at h
            injection h with h1 h2
            injection h2
          | some state =>
            simp only [hgs] at h
            have hbs : block.slot ≤ state.slot := hCons new_head block hgb state hgs
            have h1 : (update_state X spec _ state).1 = c2 := congrArg Prod.fst h
            have h2 : (update_state X spec _ state).2 = .ok () := congrArg Prod.snd h
            obtain ⟨p, s3, hp, hadv, hcache, hres⟩ :=
              update_state_success X spec _ state () h2
            rw [hres] at h1
            rw [← h1]
            show block.slot ≤ s3.slot
            have := advance_slots_ge X spec _ state s3 hadv
            omega

/-- Witness for C7 (amended): each part applied at a concrete instance. -/
theorem claim7_amended_witness :
    head_slot_invariant w_genesis_chain ∧
    head_slot_invariant (process_block w_externals w_spec c1_chain c1_block).1 ∧
    head_slot_invariant (update_state w_externals w_spec c1_chain w_genesis_state).1 ∧
    head_slot_invariant (catchup_state w_externals w_spec c1_chain).1 ∧
    head_slot_invariant c8_chain := by
  refine ⟨?_, ?_, ?_, ?_, ?_⟩
  · exact claim7_amended.1 w_externals { blocks := [], states := [] } [] w_genesis_state
      w_genesis_block w_genesis_chain (by decide) rfl
  · exact claim7_amended.2.1 w_externals w_spec c1_chain c1_block (by decide)
  · exact claim7_amended.2.2.1 w_externals w_spec c1_chain w_genesis_state (by decide)
      (by decide)
  · exact claim7_amended.2.2.2.1 w_externals w_spec c1_chain (by decide)
  · exact claim7_amended.2.2.2.2 w_externals w_spec c8_chain c8_chain (by decide)
      (fun h b hb => nomatch hb) rfl

/-! ### C2: historical block-root lookup -/

/-- A state the root walk may read from: the working-state clone or any
state persisted in the Store. -/
def source_state (c : Chain) (s : BeaconState) : Prop :=
  s = c.state ∨ ∃ p, p ∈ c.store.states ∧ p.2 = s

/-- The chain records `root` as the block root for `slot`: either it is the
head block root at the working state's own slot, or some readable state's
block-root ring yields it for `slot`. -/
def root_source (c : Chain) (slot root : Nat) : Prop :=
  (slot = c.state.slot ∧ c.canonical_head.beacon_block.slot = slot ∧
    root = c.canonical_head.beacon_block_root) ∨
  ∃ s, source_state c s ∧ get_block_root s slot = .ok root

theorem store_get_state_mem (st : Store) (h : Hash256) (s : BeaconState)
    (hs : st.get_state h = some s) : ∃ p, p ∈ st.states ∧ p.2 = s := by
  unfold Store.get_state at hs
  cases hf : st.states.find? (fun p => p.1 == h) with
  | none =>
    rw [hf] at hs
    cases hs
  | some p =>
    rw [hf] at hs
    injection hs with h1
    exact ⟨p, List.mem_of_find?_eq_some hf, h1⟩

theorem gbr_loop_unfold (store : Store) (earliest_slot step fuel : Nat)
    (state : BeaconState) (slot : Nat) (roots : List Hash256) :
    gbr_loop store earliest_slot step (fuel + 1) state slot roots =
      match get_block_root state slot with
      | .ok root =>
        if slot < earliest_slot then some (.ok (slot, roots))
        else gbr_loop store earliest_slot step fuel state (slot - step) (roots ++ [root])
      | .error .slotOutOfBounds =>
        match get_state_root state (state.slot - state.latest_state_roots.length) with
        | .error e => some (.error e)
        | .ok new_state_root =>
          match store.get_state new_state_root with
          | some s2 => gbr_loop store earliest_slot step fuel s2 slot roots
          | none => some (.ok (slot, roots))
      | .error e => some (.error e) := rfl

theorem gbr_loop_spec (c : Chain) (earliest step : Nat) :
    ∀ (fuel : Nat) (s : BeaconState) (slot : Nat) (acc : List Hash256) (fs : Nat)
      (out : List Hash256),
      source_state c s →
      gbr_loop c.store earliest step fuel s slot acc = some (.ok (fs, out)) →
      ∃ L : List Hash256, out = acc ++ L ∧
        ∀ i, i < L.length → root_source c (slot - i * step) (L.getD i 0) := by
  intro fuel
  induction fuel with
  | zero =>
    intro s slot acc fs out hsrc h
    cases h
  | succ n ih =>
    intro s slot acc fs out hsrc h
    rw [gbr_loop_unfold] at h
    cases hg : get_block_root s slot with
    | ok root =>
      simp only [hg] at h
      by_cases hlt : slot < earliest
      · rw [if_pos hlt] at h
        simp only [Option.some.injEq, Except.ok.injEq, Prod.mk.injEq] at h
        refine ⟨[], by simp [h.2], ?_⟩
        intro i hi
        cases hi
      · rw [if_neg hlt] at h
        obtain ⟨L2, hout, hprop⟩ := ih s (slot - step) (acc ++ [root]) fs out hsrc h
        refine ⟨root :: L2, ?_, ?_⟩
        · rw [hout]
          simp
        · intro i hi
          cases i with
          | zero =>
            simp only [Nat.zero_mul, Nat.sub_zero, List.getD_cons_zero]
            exact Or.inr ⟨s, hsrc, hg⟩
          | succ j =>
            have hj : j < L2.length := by simpa using hi
            have harith : slot - step - j * step = slot - (j + 1) * step := by
              rw [Nat.sub_sub, Nat.succ_mul, Nat.add_comm]
            have := hprop j hj
            rw [harith] at this
            simpa using this
    | error e =>
      cases e with
      | slotOutOfBounds =>
        simp only [hg] at h
        cases hgs : get_state_root s (s.slot - s.latest_state_roots.length) with
        | error e2 =>
          simp only [hgs] at h
          injection h with h1
          injection h1
        | ok new_state_root =>
          simp only [hgs] at h
          cases hsg : c.store.get_state new_state_root with
          | some s2 =>
            simp only [hsg] at h
            have hsrc2 : source_state c s2 :=
              Or.inr (store_get_state_mem c.store new_state_root s2 hsg)
            exact ih s2 slot acc fs out hsrc2 h
          | none =>
            simp only [hsg] at h
            simp only [Option.some.injEq, Except.ok.injEq, Prod.mk.injEq] at h
            refine ⟨[], by simp [h.2], ?_⟩
            intro i hi
            cases hi
      | cacheFailure =>
        simp only [hg] at h
        injection h with h1
        injection h1

theorem list_getD_reverse (l : List Nat) (k : Nat) (h : k < l.length) :
    l.reverse.getD k 0 = l.getD (l.length - 1 - k) 0 := by
  have h2 : l.length - 1 - k < l.length := by omega
  rw [List.getD_eq_getElem?_getD, List.getD_eq_getElem?_getD]
  rw [List.getElem?_eq_getElem (by simpa using h), List.getElem?_eq_getElem h2]
  simp

theorem gbr_finish_ok (earliest count : Nat)
    (r : Option (Except BeaconStateError (Nat × List Hash256))) (roots : List Hash256)
    (h : gbr_finish earliest count r = some (.ok roots)) :
    ∃ fs out, r = some (.ok (fs, out)) ∧ fs ≤ earliest ∧ out.length = count ∧
      roots = out.reverse := by
  unfold gbr_finish at h
  cases r with
  | none => cases h
  | some x =>
    cases x with
    | error e =>
      injection h with h1
      injection h1
    | ok p =>
      obtain ⟨fs, out⟩ := p
      dsimp only at h
      by_cases hc : fs ≤ earliest ∧ out.length = count
      · rw [if_pos hc] at h
        injection h with h1
        injection h1 with h2
        exact ⟨fs, out, rfl, hc.1, hc.2, h2.symm⟩
      · rw [if_neg hc] at h
        injection h with h1
        injection h1

theorem gbr_assemble (c : Chain) (earliest count skip : Nat) (hcount : 1 ≤ count)
    (out roots : List Hash256) (hlen : out.length = count) (hrev : roots = out.reverse)
    (hprop : ∀ j, j < count →
      root_source c (earliest + count * (skip + 1) - 1 - j * (skip + 1)) (out.getD j 0)) :
    roots.length = count ∧
    ∀ k, k < count →
      root_source c (earliest + skip + k * (skip + 1)) (roots.getD k 0) := by
  subst hrev
  refine ⟨by simpa using hlen, ?_⟩
  intro k hk
  have h1 : count * (skip + 1) = (count - 1) * (skip + 1) + (skip + 1) := by
    have hc1 : count = (count - 1) + 1 := by omega
    calc count * (skip + 1) = ((count - 1) + 1) * (skip + 1) := by rw [← hc1]
      _ = (count - 1) * (skip + 1) + (skip + 1) := by rw [Nat.succ_mul]
  have h2 : (count - 1 - k) * (skip + 1) =
      (count - 1) * (skip + 1) - k * (skip + 1) := Nat.sub_mul _ _ _
  have h3 : k * (skip + 1) ≤ (count - 1) * (skip + 1) :=
    Nat.mul_le_mul_right _ (by omega)
  have harr : earliest + count * (skip + 1) - 1 - (count - 1 - k) * (skip + 1) =
      earliest + skip + k * (skip + 1) := by
    rw [h1, h2]
    generalize (count - 1) * (skip + 1) = A at h3
    generalize k * (skip + 1) = B at h3
    omega
  rw [list_getD_reverse out k (by omega), hlen]
  have := hprop (count - 1 - k) (by omega)
  rw [harr] at this
  exact this

/-- C2 (amended): every *successful* `get_block_roots` call returns exactly
`count` roots, and the root at position `k` is the chain's block root for
slot `earliest_slot + skip + k * (skip + 1)` — a strictly increasing
progression spaced `skip + 1` apart whose *last* slot is
`earliest_slot + count * (skip + 1) - 1`, so the sequence is anchored at
`earliest_slot + skip`, not at `earliest_slot`; each root comes from the
working state's ring, a persisted historical state's ring, or the head
block (for the working state's own slot).  A request whose range begins
above the working state's slot fails with `SlotOutOfBounds`, and no
successful call ever returns fewer than `count` roots. -/
theorem claim2_amended (c : Chain) (earliest count skip fuel : Nat) (hcount : 1 ≤ count) :
    (∀ roots, get_block_roots c earliest count skip fuel = some (.ok roots) →
      roots.length = count ∧
      ∀ k, k < count →
        root_source c (earliest + skip + k * (skip + 1)) (roots.getD k 0)) ∧
    (c.state.slot < earliest →
      get_block_roots c earliest count skip fuel =
        some (.error (.beaconStateError .slotOutOfBounds))) := by
  have hs0 : earliest ≤ earliest + count * (skip + 1) - 1 := by
    have hm : 1 * 1 ≤ count * (skip + 1) :=
      Nat.mul_le_mul hcount (Nat.le_add_left 1 skip)
    generalize count * (skip + 1) = m at hm
    omega
  constructor
  · intro roots h
    unfold get_block_roots at h
    by_cases hA : earliest + count * (skip + 1) - 1 = c.state.slot ∧
        c.canonical_head.beacon_block.slot = earliest + count * (skip + 1) - 1
    · rw [if_pos hA] at h
      obtain ⟨fs, out, hloop, hfs, hlen, hrev⟩ := gbr_finish_ok earliest count _ roots h
      obtain ⟨L, hout, hprop⟩ := gbr_loop_spec c earliest (skip + 1) fuel c.state
        (earliest + count * (skip + 1) - 1 - (skip + 1))
        [c.canonical_head.beacon_block_root] fs out (Or.inl rfl) hloop
      refine gbr_assemble c earliest count skip hcount out roots hlen hrev ?_
      intro j hj
      have hout2 : out = c.canonical_head.beacon_block_root :: L := by
        rw [hout]
        rfl
      cases j with
      | zero =>
        simp only [hout2, Nat.zero_mul, Nat.sub_zero, List.getD_cons_zero]
        exact Or.inl ⟨hA.1, hA.2, rfl⟩
      | succ i =>
        have hi : i < L.length := by
          have : out.length = L.length + 1 := by
            rw [hout2]
            simp
          omega
        have harith : earliest + count * (skip + 1) - 1 - (skip + 1) - i * (skip + 1) =
            earliest + count * (skip + 1) - 1 - (i + 1) * (skip + 1) := by
          rw [Nat.sub_sub, Nat.succ_mul, Nat.add_comm (skip + 1) (i * (skip + 1))]
        have := hprop i hi
        rw [harith] at this
        simpa [hout2] using this
    · rw [if_neg hA] at h
      by_cases hB : c.state.slot ≤ earliest + count * (skip + 1) - 1
      · rw [if_pos hB] at h
        injection h with h1
        injection h1
      · rw [if_neg hB] at h
        obtain ⟨fs, out, hloop, hfs, hlen, hrev⟩ := gbr_finish_ok earliest count _ roots h
        obtain ⟨L, hout, hprop⟩ := gbr_loop_spec c earliest (skip + 1) fuel c.state
          (earliest + count * (skip + 1) - 1) [] fs out (Or.inl rfl) hloop
        refine gbr_assemble c earliest count skip hcount out roots hlen hrev ?_
        intro j hj
        have hj2 : j < L.length := by
          have : out.length = L.length := by
            rw [hout]
            simp
          omega
        have := hprop j hj2
        simpa [hout] using this
  · intro hgt
    unfold get_block_roots
    rw [if_neg (by
      intro hA
      omega)]
    rw [if_pos (by omega)]

/-- Working state for the C2 counterexample: slot 5, ring capacity 8, the
block-root ring holding root `100 + i` for slot `i`. -/
def c2_working_state : BeaconState :=
  { slot := 5
    latest_block_header := c10_header
    latest_block_roots := [100, 101, 102, 103, 104, 105, 106, 107]
    latest_state_roots := [200, 201, 202, 203, 204, 205, 206, 207]
    validator_registry := []
    epoch_data := 0 }

/-- Head block for the C2 counterexample (slot 5). -/
def c2_head_block : BeaconBlock :=
  { slot := 5, previous_block_root := 0, state_root := 0, signature := 0
    body := { randao_reveal := 0, rest := 0 } }

/-- Chain for the C2 counterexample. -/
def c2_chain : Chain :=
  { store := { blocks := [], states := [] }
    canonical_head :=
      { beacon_block := c2_head_block, beacon_block_root := 555
        beacon_state := c2_working_state, beacon_state_root := 0 }
    finalized_head :=
      { beacon_block := c2_head_block, beacon_block_root := 555
        beacon_state := c2_working_state, beacon_state_root := 0 }
    state := c2_working_state
    fork_choice_blocks := []
    op_pool := 0 }

/-- C2 counterexample: `get_block_roots c2_chain 1 2 1` succeeds and returns
the ring roots of slots 2 and 4 ([102, 104]), not those of slots 1 and 3
([101, 103]) — the progression starts at `earliest_slot + skip`, refuting
"starting at earliest_slot". -/
theorem claim2_counterexample :
    get_block_roots c2_chain 1 2 1 100 = some (.ok [102, 104]) ∧
    get_block_root c2_chain.state 1 = .ok 101 ∧
    get_block_root c2_chain.state 3 = .ok 103 ∧
    ([102, 104] : List Hash256) ≠ [101, 103] :=
  ⟨rfl, rfl, rfl, by decide⟩

/-- Witness for C2 (amended): the concrete successful call of the
counterexample chain satisfies the theorem's conclusions, and a concrete
out-of-range request fails with `SlotOutOfBounds`. -/
theorem claim2_witness :
    (([102, 104] : List Hash256).length = 2 ∧
      ∀ k, k < 2 →
        root_source c2_chain (1 + 1 + k * 2) (([102, 104] : List Hash256).getD k 0)) ∧
    get_block_roots c2_chain 6 1 0 100 =
      some (.error (.beaconStateError .slotOutOfBounds)) := by
  constructor
  · exact (claim2_amended c2_chain 1 2 1 100 (by decide)).1 [102, 104] rfl
  · exact (claim2_amended c2_chain 6 1 0 100 (by decide)).2 (by decide)

end BeaconCore
